import Mathlib

/-!
Verification of the chain-monitor and cryptography core of the `rust-teos`
watchtower against its specification.

Part 1 models `teos/src/chain_monitor.rs`: the `ChainMonitor` state, one
execution of `ChainMonitor::poll_best_tip`, and the `ChainMonitor::monitor_chain`
polling loop.  The block-data source (`lightning_block_sync::SpvClient`) and the
database manager (`DBM`) are external collaborators; they are modelled at their
interface boundary: the poll outcome, the chain-event callbacks the source drove
during the poll, and whether the durable write fails are inputs chosen by the
environment.

Part 2 models `teos-common/src/cryptography.rs`: `encrypt` / `decrypt`, built on
byte-exact models of the external primitives they call (SHA-256, RFC 8439
ChaCha20-Poly1305 as implemented by the `chacha20poly1305` crate, and the
rust-bitcoin consensus transaction codec).
-/

set_option maxRecDepth 10000

namespace ChainMonitorModel

/-- `lightning_block_sync::poll::ValidatedBlockHeader` as the monitor uses it:
a block hash and the cumulative chainwork used to compare tips. -/
structure ValidatedBlockHeader where
  block_hash : Nat
  chainwork : Nat
deriving DecidableEq, Repr

/-- `lightning_block_sync::poll::ChainTip`: the three poll outcomes. -/
inductive ChainTip where
  | Common
  | Better (new_best : ValidatedBlockHeader)
  | Worse (worse : ValidatedBlockHeader)
deriving DecidableEq, Repr

/-- A `chain::Listen` callback driven by the block-data source during a poll
(the monitor itself never invokes these). -/
inductive ListenEvent where
  | block_connected (hash height : Nat)
  | block_disconnected (hash height : Nat)
deriving DecidableEq, Repr

/-- Result of one call to `SpvClient::poll_best_tip`: a connection error, or a
tip outcome together with the listen callbacks the source drove before
returning. -/
inductive PollResult where
  | err
  | ok (tip : ChainTip) (events : List ListenEvent)
deriving DecidableEq, Repr

/-- Interface contract of the block-data source (spec section 6): callbacks are
driven only before an `Advanced` (`Better`) outcome is returned. -/
def source_contract : PollResult → Prop
  | .ok (.Better _) _ => True
  | .ok _ events => events = []
  | .err => True

instance : DecidablePred source_contract := by
  intro pr
  cases pr with
  | err => exact .isTrue trivial
  | ok tip events => cases tip <;> simp only [source_contract] <;> infer_instance

/-- The slice of the `DBM` the monitor touches: the stored last known block
hash (`store_last_known_block` / `load_last_known_block`).  The store starts
empty unless something was persisted before. -/
structure DBM where
  last_known_block : Option Nat
deriving DecidableEq, Repr

/-- `DBM::store_last_known_block`.  Whether the underlying database write fails
is decided by the environment and injected as `fails`. -/
def DBM.store_last_known_block (dbm : DBM) (h : Nat) (fails : Bool) :
    Except Unit DBM :=
  if fails then .error () else .ok { dbm with last_known_block := some h }

/-- The mutable state of `ChainMonitor`: the in-memory
`last_known_block_header` and the shared database manager. -/
structure MonitorState where
  last_known_block_header : ValidatedBlockHeader
  dbm : DBM
deriving DecidableEq, Repr

/-- `ChainMonitor::new`: stores the initial header and database handle.  It
performs no persistence. -/
def ChainMonitor.new (last_known_block_header : ValidatedBlockHeader)
    (dbm : DBM) : MonitorState :=
  { last_known_block_header := last_known_block_header, dbm := dbm }

/-- Observable events of one monitor execution, in order: log lines, the
in-memory field assignment, the completed durable write, and the listen
callbacks driven by the source. -/
inductive Event where
  | log_debug (msg : String)
  | log_warn (msg : String)
  | log_error (msg : String)
  | set_last_known (h : ValidatedBlockHeader)
  | store_write (hash : Nat)
  | listen (e : ListenEvent)
deriving DecidableEq, Repr

def Event.is_listen : Event → Bool
  | .listen _ => true
  | _ => false

def Event.is_store_write : Event → Bool
  | .store_write _ => true
  | _ => false

/-- Result of one execution of `poll_best_tip`: either it returns normally, or
the `.unwrap()` on the store result panicked (`s` is the in-memory state at the
moment of the panic). -/
inductive StepResult where
  | ok (s : MonitorState)
  | panicked (s : MonitorState)
deriving DecidableEq, Repr

/-- `ChainMonitor::poll_best_tip`, one execution.  `pr` is what
`SpvClient::poll_best_tip` returned (with the callbacks it drove), and
`write_fails` is whether `store_last_known_block` fails on this iteration.
Mirrors the source: on `Better` the in-memory field is assigned first, then the
hash is stored, and the `Result` of the store is `.unwrap()`ed — a failing
write panics. -/
def poll_best_tip (s : MonitorState) (pr : PollResult) (write_fails : Bool) :
    StepResult × List Event :=
  match pr with
  | .err => (.ok s, [.log_error "Connection lost with bitcoind"])
  | .ok tip events =>
    let pre := events.map Event.listen
    match tip with
    | .Common => (.ok s, pre ++ [.log_debug "No new best tip found"])
    | .Better new_best =>
      let s1 := { s with last_known_block_header := new_best }
      match s1.dbm.store_last_known_block new_best.block_hash write_fails with
      | .ok dbm1 =>
        (.ok { s1 with dbm := dbm1 },
         pre ++ [.log_debug "Updating best tip", .set_last_known new_best,
                 .store_write new_best.block_hash])
      | .error _ =>
        (.panicked s1,
         pre ++ [.log_debug "Updating best tip", .set_last_known new_best])
    | .Worse worse =>
      (.ok s,
       pre ++ [.log_warn "Worse tip found",
               if worse.chainwork = s.last_known_block_header.chainwork then
                 .log_warn "New tip has the same work as the previous one"
               else
                 .log_warn "New tip has less work than the previous one"])

/-- Environment input for one iteration of the loop: what the poll returns,
whether the durable write fails, and whether the shutdown signal is observed
set at the wait step (`timeout(polling_delta, shutdown_signal)` resolving to
`Ok`). -/
structure IterInput where
  poll : PollResult
  write_fails : Bool
  shutdown : Bool
deriving DecidableEq, Repr

/-- The shutdown signal is a set-once token: once an iteration observes it set,
every later iteration observes it set. -/
def shutdown_monotone (inputs : List IterInput) : Prop :=
  ∀ j k, j ≤ k → (hj : j < inputs.length) → (hk : k < inputs.length) →
    (inputs.get ⟨j, hj⟩).shutdown = true → (inputs.get ⟨k, hk⟩).shutdown = true

/-- How a run of the loop over a finite environment schedule ended. -/
inductive RunResult where
  | shutdown (s : MonitorState)
  | crashed (s : MonitorState)
  | running (s : MonitorState)
deriving DecidableEq, Repr

/-- Whether the loop terminated (by shutdown or by a panic) rather than merely
exhausting the finite environment schedule. -/
def RunResult.terminated : RunResult → Bool
  | .running _ => false
  | _ => true

/-- `ChainMonitor::monitor_chain` over a finite environment schedule.  Each
iteration runs `poll_best_tip` to completion and only then races the sleep
against the shutdown signal; on a panic the loop (and the task) dies.  Returns
how the run ended, the full event trace, and the number of poll iterations
started. -/
def monitor_chain (s : MonitorState) :
    List IterInput → RunResult × List Event × Nat
  | [] => (.running s, [], 0)
  | i :: rest =>
    match poll_best_tip s i.poll i.write_fails with
    | (.panicked s1, tr) => (.crashed s1, tr, 1)
    | (.ok s1, tr) =>
      if i.shutdown then
        (.shutdown s1,
         tr ++ [.log_debug "Received shutting down signal. Shutting down"], 1)
      else
        let r := monitor_chain s1 rest
        (r.1, tr ++ r.2.1, r.2.2 + 1)

/-- Invariant stated by the spec for claim C2: the in-memory block hash equals
the last value persisted to durable storage. -/
def persisted_matches (s : MonitorState) : Prop :=
  s.dbm.last_known_block = some s.last_known_block_header.block_hash

instance : DecidablePred persisted_matches := by
  intro s; unfold persisted_matches; infer_instance

end ChainMonitorModel

/-!
Byte-level primitives used by `teos-common/src/cryptography.rs`.  Bytes are
`Nat`s below 256 and byte strings are `List Nat`.  These model the external
crates the source calls: `bitcoin::hashes::sha256` (FIPS 180-4 SHA-256),
`chacha20poly1305` (RFC 8439 ChaCha20-Poly1305 with a postfix tag), and the
rust-bitcoin consensus transaction codec behind
`bitcoin::util::psbt::serialize::{Serialize, Deserialize}`.
-/

namespace ByteCodec

/-- `n` as `k` little-endian bytes (`n` is truncated to `k` bytes). -/
def natToLE : Nat → Nat → List Nat
  | 0, _ => []
  | k + 1, n => n % 256 :: natToLE k (n / 256)

/-- `n` as `k` big-endian bytes. -/
def natToBE : Nat → Nat → List Nat
  | 0, _ => []
  | k + 1, n => natToBE k (n / 256) ++ [n % 256]

/-- Little-endian interpretation of a byte string. -/
def leNat (bs : List Nat) : Nat :=
  bs.foldr (fun b acc => b + 256 * acc) 0

/-- Every element of the list is a byte. -/
def wfBytes (bs : List Nat) : Prop := ∀ b ∈ bs, b < 256

instance : DecidablePred wfBytes := by
  intro bs; unfold wfBytes; infer_instance

end ByteCodec

namespace Sha256

open ByteCodec

def add32 (a b : Nat) : Nat := (a + b) % 4294967296

def rotr32 (x n : Nat) : Nat :=
  ((x >>> n) ||| (x <<< (32 - n))) % 4294967296

def bsig0 (x : Nat) : Nat := rotr32 x 2 ^^^ rotr32 x 13 ^^^ rotr32 x 22
def bsig1 (x : Nat) : Nat := rotr32 x 6 ^^^ rotr32 x 11 ^^^ rotr32 x 25
def ssig0 (x : Nat) : Nat := rotr32 x 7 ^^^ rotr32 x 18 ^^^ (x >>> 3)
def ssig1 (x : Nat) : Nat := rotr32 x 17 ^^^ rotr32 x 19 ^^^ (x >>> 10)
def chFn (e f g : Nat) : Nat := (e &&& f) ^^^ ((2 ^ 32 - 1 - e) &&& g)
def majFn (a b c : Nat) : Nat := (a &&& b) ^^^ (a &&& c) ^^^ (b &&& c)

def K : List Nat :=
  [1116352408, 1899447441, 3049323471, 3921009573, 961987163, 1508970993,
   2453635748, 2870763221, 3624381080, 310598401, 607225278, 1426881987,
   1925078388, 2162078206, 2614888103, 3248222580, 3835390401, 4022224774,
   264347078, 604807628, 770255983, 1249150122, 1555081692, 1996064986,
   2554220882, 2821834349, 2952996808, 3210313671, 3336571891, 3584528711,
   113926993, 338241895, 666307205, 773529912, 1294757372, 1396182291,
   1695183700, 1986661051, 2177026350, 2456956037, 2730485921, 2820302411,
   3259730800, 3345764771, 3516065817, 3600352804, 4094571909, 275423344,
   430227734, 506948616, 659060556, 883997877, 958139571, 1322822218,
   1537002063, 1747873779, 1955562222, 2024104815, 2227730452, 2361852424,
   2428436474, 2756734187, 3204031479, 3329325298]

def H0 : List Nat :=
  [1779033703, 3144134277, 1013904242, 2773480762, 1359893119, 2600822924,
   528734635, 1541459225]

/-- Big-endian 32-bit words from a byte string (groups of 4). -/
def toWordsBE : List Nat → List Nat
  | a :: b :: c :: d :: rest => (((a * 256 + b) * 256 + c) * 256 + d) :: toWordsBE rest
  | _ => []

/-- Message schedule, extended in reverse (newest word first). -/
def extendSchedule : Nat → List Nat → List Nat
  | 0, wrev => wrev
  | k + 1, wrev =>
    extendSchedule k
      (add32 (add32 (ssig1 (wrev.getD 1 0)) (wrev.getD 6 0))
             (add32 (ssig0 (wrev.getD 14 0)) (wrev.getD 15 0)) :: wrev)

def schedule (block : List Nat) : List Nat :=
  (extendSchedule 48 block.reverse).reverse

/-- One compression round; the state is the 8 working variables. -/
def roundFn (s : List Nat) (kw : Nat × Nat) : List Nat :=
  match s with
  | [a, b, c, d, e, f, g, h] =>
    let t1 := add32 h (add32 (bsig1 e) (add32 (chFn e f g) (add32 kw.1 kw.2)))
    let t2 := add32 (bsig0 a) (majFn a b c)
    [add32 t1 t2, a, b, c, add32 d t1, e, f, g]
  | _ => s

/-- Compress one 16-word block into the hash state. -/
def compress (hs : List Nat) (block : List Nat) : List Nat :=
  List.zipWith add32 hs ((K.zip (schedule block)).foldl roundFn hs)

/-- SHA-256 padding: `0x80`, zeros to 56 mod 64, 8-byte big-endian bit length. -/
def pad (msg : List Nat) : List Nat :=
  msg ++ 0x80 :: List.replicate ((119 - msg.length % 64) % 64) 0
      ++ natToBE 8 (8 * msg.length)

/-- Fold `compress` over the 16-word blocks of the padded message (whose word
count is always a multiple of 16). -/
def compressBlocks (hs : List Nat) : List Nat → List Nat
  | w0 :: w1 :: w2 :: w3 :: w4 :: w5 :: w6 :: w7
      :: w8 :: w9 :: w10 :: w11 :: w12 :: w13 :: w14 :: w15 :: rest =>
    compressBlocks
      (compress hs [w0, w1, w2, w3, w4, w5, w6, w7,
                    w8, w9, w10, w11, w12, w13, w14, w15]) rest
  | _ => hs

/-- SHA-256 digest (32 bytes) of a byte string. -/
def sha256 (msg : List Nat) : List Nat :=
  ((compressBlocks H0 (toWordsBE (pad msg))).map (natToBE 4)).flatten

end Sha256

namespace ChaCha20

open ByteCodec

def add32 (a b : Nat) : Nat := (a + b) % 4294967296

def rotl32 (x n : Nat) : Nat :=
  ((x <<< n) ||| (x >>> (32 - n))) % 4294967296

/-- Little-endian 32-bit words from a byte string (groups of 4). -/
def toWordsLE : List Nat → List Nat
  | a :: b :: c :: d :: rest =>
    (a + 256 * (b + 256 * (c + 256 * d))) :: toWordsLE rest
  | _ => []

/-- RFC 8439 quarter round on ChaCha state positions `a b c d`. -/
def qround (s : List Nat) (a b c d : Nat) : List Nat :=
  let sa := add32 (s.getD a 0) (s.getD b 0)
  let sd := rotl32 (s.getD d 0 ^^^ sa) 16
  let sc := add32 (s.getD c 0) sd
  let sb := rotl32 (s.getD b 0 ^^^ sc) 12
  let sa2 := add32 sa sb
  let sd2 := rotl32 (sd ^^^ sa2) 8
  let sc2 := add32 sc sd2
  let sb2 := rotl32 (sb ^^^ sc2) 7
  (((s.set a sa2).set b sb2).set c sc2).set d sd2

def doubleRound (s : List Nat) : List Nat :=
  let s1 := qround s 0 4 8 12
  let s2 := qround s1 1 5 9 13
  let s3 := qround s2 2 6 10 14
  let s4 := qround s3 3 7 11 15
  let s5 := qround s4 0 5 10 15
  let s6 := qround s5 1 6 11 12
  let s7 := qround s6 2 7 8 13
  qround s7 3 4 9 14

/-- The ChaCha20 block function: 64 keystream bytes for (key, counter, nonce).
`key` is 32 bytes, `nonce` 12 bytes, `counter` a 32-bit word. -/
def block (key : List Nat) (counter : Nat) (nonce : List Nat) : List Nat :=
  let st := [0x61707865, 0x3320646e, 0x79622d32, 0x6b206574]
      ++ toWordsLE key ++ (counter % 4294967296 :: toWordsLE nonce)
  ((List.zipWith add32 (Nat.iterate doubleRound 10 st) st).map (natToLE 4)).flatten

def blocks (key nonce : List Nat) (counter : Nat) : Nat → List Nat
  | 0 => []
  | k + 1 => block key counter nonce ++ blocks key nonce (counter + 1) k

/-- `n` keystream bytes starting at block `counter`. -/
def stream (key nonce : List Nat) (counter n : Nat) : List Nat :=
  (blocks key nonce counter ((n + 63) / 64)).take n

end ChaCha20

namespace Poly1305

open ByteCodec

def p1305 : Nat := 2 ^ 130 - 5

def clampR (r : Nat) : Nat := r &&& 0x0ffffffc0ffffffc0ffffffc0fffffff

/-- Absorb `msg` into the accumulator, 16 bytes per block, the final block
possibly shorter; every block is extended with a high `1` bit. -/
def loop (r acc : Nat) : List Nat → Nat
  | [] => acc
  | b0 :: b1 :: b2 :: b3 :: b4 :: b5 :: b6 :: b7
      :: b8 :: b9 :: b10 :: b11 :: b12 :: b13 :: b14 :: b15 :: rest =>
    loop r ((acc + (leNat [b0, b1, b2, b3, b4, b5, b6, b7,
                           b8, b9, b10, b11, b12, b13, b14, b15]
                     + 2 ^ 128)) * r % p1305) rest
  | blk =>
    (acc + (leNat blk + 2 ^ (8 * blk.length))) * r % p1305

/-- Poly1305 MAC (16 bytes) of `msg` under a 32-byte one-time key. -/
def mac (key : List Nat) (msg : List Nat) : List Nat :=
  natToLE 16 ((loop (clampR (leNat (key.take 16))) 0 msg
                + leNat (key.drop 16)) % 2 ^ 128)

end Poly1305

namespace Aead

open ByteCodec

/-- Zero padding to the next 16-byte boundary. -/
def pad16 (xs : List Nat) : List Nat :=
  List.replicate ((16 - xs.length % 16) % 16) 0

/-- The RFC 8439 Poly1305 input: aad, ciphertext, both padded, then their
64-bit little-endian lengths. -/
def macData (aad ct : List Nat) : List Nat :=
  aad ++ pad16 aad ++ ct ++ pad16 ct
      ++ natToLE 8 aad.length ++ natToLE 8 ct.length

/-- ChaCha20-Poly1305 seal as the `chacha20poly1305` crate implements it:
ciphertext followed by the 16-byte tag. -/
def sealAead (key nonce aad pt : List Nat) : List Nat :=
  let ct := List.zipWith HXor.hXor (ChaCha20.stream key nonce 1 pt.length) pt
  ct ++ Poly1305.mac ((ChaCha20.block key 0 nonce).take 32) (macData aad ct)

/-- ChaCha20-Poly1305 open: split the postfix tag, verify it, decrypt.
`none` is the crate's opaque `aead::Error`. -/
def openAead (key nonce aad blob : List Nat) : Option (List Nat) :=
  if blob.length < 16 then none
  else
    let ct := blob.take (blob.length - 16)
    let tag := blob.drop (blob.length - 16)
    if Poly1305.mac ((ChaCha20.block key 0 nonce).take 32) (macData aad ct) = tag
    then some (List.zipWith HXor.hXor (ChaCha20.stream key nonce 1 ct.length) ct)
    else none

end Aead

/-!
The rust-bitcoin consensus transaction codec (version 0.27, as the repository
pins it) behind `bitcoin::util::psbt::serialize::{Serialize, Deserialize}`.
Machine integers are `Nat`s holding the encoded bit pattern (`version` is the
`i32` bit pattern).  The decoder keeps rust-bitcoin's VarInt minimality check
and its segwit marker/flag handling; its `OversizedVectorAllocation` guard
(an allocation bound computed from in-memory struct sizes) is a resource
limit on decoding and is abstracted here.
-/

namespace BitcoinTx

open ByteCodec

structure OutPoint where
  txid : List Nat
  vout : Nat
deriving DecidableEq, Repr

structure TxIn where
  previous_output : OutPoint
  script_sig : List Nat
  sequence : Nat
  witness : List (List Nat)
deriving DecidableEq, Repr

structure TxOut where
  value : Nat
  script_pubkey : List Nat
deriving DecidableEq, Repr

structure Transaction where
  version : Nat
  lock_time : Nat
  input : List TxIn
  output : List TxOut
deriving DecidableEq, Repr

/-- Bitcoin variable-length integer (CompactSize). -/
def varint (n : Nat) : List Nat :=
  if n < 253 then [n]
  else if n ≤ 0xFFFF then 253 :: natToLE 2 n
  else if n ≤ 0xFFFFFFFF then 254 :: natToLE 4 n
  else 255 :: natToLE 8 n

def encodeBytes (bs : List Nat) : List Nat := varint bs.length ++ bs

def encodeOutPoint (o : OutPoint) : List Nat := o.txid ++ natToLE 4 o.vout

def encodeTxIn (i : TxIn) : List Nat :=
  encodeOutPoint i.previous_output ++ encodeBytes i.script_sig
    ++ natToLE 4 i.sequence

def encodeTxOut (o : TxOut) : List Nat :=
  natToLE 8 o.value ++ encodeBytes o.script_pubkey

def encodeVec (f : α → List Nat) (xs : List α) : List Nat :=
  varint xs.length ++ (xs.map f).flatten

/-- `Transaction::serialize` (consensus encoding): segwit framing is used when
the input list is empty or some input carries a witness, exactly as
rust-bitcoin computes `have_witness`. -/
def Transaction.serialize (tx : Transaction) : List Nat :=
  let haveWitness := tx.input.isEmpty || tx.input.any (fun i => !i.witness.isEmpty)
  natToLE 4 tx.version
    ++ (if haveWitness then
          0 :: 1 :: (encodeVec encodeTxIn tx.input ++ encodeVec encodeTxOut tx.output
            ++ (tx.input.map (fun i => encodeVec encodeBytes i.witness)).flatten)
        else
          encodeVec encodeTxIn tx.input ++ encodeVec encodeTxOut tx.output)
    ++ natToLE 4 tx.lock_time

/-- rust-bitcoin `encode::Error` cases this codec can hit. -/
inductive DecodeErr where
  | unexpectedEOF
  | nonMinimalVarInt
  | unsupportedSegwitFlag (flag : Nat)
  | witnessFlagWithoutWitnesses
  | dataNotConsumed
deriving DecidableEq, Repr

def readByte : List Nat → Except DecodeErr (Nat × List Nat)
  | [] => .error .unexpectedEOF
  | b :: rest => .ok (b, rest)

def readBytes : Nat → List Nat → Except DecodeErr (List Nat × List Nat)
  | 0, bs => .ok ([], bs)
  | _ + 1, [] => .error .unexpectedEOF
  | k + 1, b :: bs => do
    let (xs, rest) ← readBytes k bs
    .ok (b :: xs, rest)

def readLE (k : Nat) (bs : List Nat) : Except DecodeErr (Nat × List Nat) := do
  let (xs, rest) ← readBytes k bs
  .ok (leNat xs, rest)

/-- `VarInt::consensus_decode`, including the non-minimal-encoding check. -/
def readVarInt (bs : List Nat) : Except DecodeErr (Nat × List Nat) := do
  let (n, rest) ← readByte bs
  if n = 255 then
    let (x, rest2) ← readLE 8 rest
    if x < 4294967296 then .error .nonMinimalVarInt else .ok (x, rest2)
  else if n = 254 then
    let (x, rest2) ← readLE 4 rest
    if x < 65536 then .error .nonMinimalVarInt else .ok (x, rest2)
  else if n = 253 then
    let (x, rest2) ← readLE 2 rest
    if x < 253 then .error .nonMinimalVarInt else .ok (x, rest2)
  else .ok (n, rest)

def readVarBytes (bs : List Nat) : Except DecodeErr (List Nat × List Nat) := do
  let (n, rest) ← readVarInt bs
  readBytes n rest

def readVec (p : List Nat → Except DecodeErr (α × List Nat)) :
    Nat → List Nat → Except DecodeErr (List α × List Nat)
  | 0, bs => .ok ([], bs)
  | k + 1, bs => do
    let (x, rest) ← p bs
    let (xs, rest2) ← readVec p k rest
    .ok (x :: xs, rest2)

def readOutPoint (bs : List Nat) : Except DecodeErr (OutPoint × List Nat) := do
  let (txid, r1) ← readBytes 32 bs
  let (vout, r2) ← readLE 4 r1
  .ok (⟨txid, vout⟩, r2)

/-- `TxIn::consensus_decode`: the witness is left empty here and filled in by
the segwit path of the transaction decoder. -/
def readTxIn (bs : List Nat) : Except DecodeErr (TxIn × List Nat) := do
  let (op, r1) ← readOutPoint bs
  let (ss, r2) ← readVarBytes r1
  let (seq, r3) ← readLE 4 r2
  .ok (⟨op, ss, seq, []⟩, r3)

def readTxOut (bs : List Nat) : Except DecodeErr (TxOut × List Nat) := do
  let (v, r1) ← readLE 8 bs
  let (spk, r2) ← readVarBytes r1
  .ok (⟨v, spk⟩, r2)

def readWitness (bs : List Nat) : Except DecodeErr (List (List Nat) × List Nat) := do
  let (n, rest) ← readVarInt bs
  readVec readVarBytes n rest

/-- Assign decoded witnesses to the inputs, in input order. -/
def readWitnesses : List TxIn → List Nat →
    Except DecodeErr (List TxIn × List Nat)
  | [], bs => .ok ([], bs)
  | i :: is, bs => do
    let (w, r1) ← readWitness bs
    let (rest, r2) ← readWitnesses is r1
    .ok ({ i with witness := w } :: rest, r2)

/-- `Transaction::consensus_decode`: an empty input vector signals the segwit
marker; only flag 1 is supported; a segwit transaction with inputs but no
witness data is rejected. -/
def consensusDecodeTx (bs : List Nat) :
    Except DecodeErr (Transaction × List Nat) := do
  let (version, r1) ← readLE 4 bs
  let (n, r2) ← readVarInt r1
  let (inputs, r3) ← readVec readTxIn n r2
  if inputs.isEmpty then
    let (flag, r4) ← readByte r3
    if flag = 1 then
      let (n2, r5) ← readVarInt r4
      let (inputs2, r6) ← readVec readTxIn n2 r5
      let (m, r7) ← readVarInt r6
      let (outputs, r8) ← readVec readTxOut m r7
      let (inputs3, r9) ← readWitnesses inputs2 r8
      if !inputs3.isEmpty && inputs3.all (fun i => i.witness.isEmpty) then
        .error .witnessFlagWithoutWitnesses
      else
        let (lt, r10) ← readLE 4 r9
        .ok (⟨version, lt, inputs3, outputs⟩, r10)
    else .error (.unsupportedSegwitFlag flag)
  else
    let (m, r4) ← readVarInt r3
    let (outputs, r5) ← readVec readTxOut m r4
    let (lt, r6) ← readLE 4 r5
    .ok (⟨version, lt, inputs, outputs⟩, r6)

/-- `Transaction::deserialize` (psbt `Deserialize`): `consensus::deserialize`,
which additionally requires the whole byte string to be consumed. -/
def Transaction.deserialize (bs : List Nat) : Except DecodeErr Transaction := do
  let (tx, rest) ← consensusDecodeTx bs
  if rest.isEmpty then .ok tx else .error .dataNotConsumed

/-- Well-formedness of a transaction value: every field fits the machine type
it is declared with in rust-bitcoin (`Nat` is wider than the Rust integers),
and hash/byte fields hold bytes. -/
def OutPoint.wf (o : OutPoint) : Prop :=
  o.txid.length = 32 ∧ wfBytes o.txid ∧ o.vout < 2 ^ 32

def TxIn.wf (i : TxIn) : Prop :=
  i.previous_output.wf ∧ wfBytes i.script_sig ∧ i.script_sig.length < 2 ^ 64
    ∧ i.sequence < 2 ^ 32 ∧ i.witness.length < 2 ^ 64
    ∧ ∀ w ∈ i.witness, wfBytes w ∧ w.length < 2 ^ 64

def TxOut.wf (o : TxOut) : Prop :=
  o.value < 2 ^ 64 ∧ wfBytes o.script_pubkey ∧ o.script_pubkey.length < 2 ^ 64

def Transaction.wf (tx : Transaction) : Prop :=
  tx.version < 2 ^ 32 ∧ tx.lock_time < 2 ^ 32
    ∧ tx.input.length < 2 ^ 64 ∧ tx.output.length < 2 ^ 64
    ∧ (∀ i ∈ tx.input, i.wf) ∧ ∀ o ∈ tx.output, o.wf

instance : DecidablePred OutPoint.wf := by
  intro o; unfold OutPoint.wf; infer_instance

instance : DecidablePred TxIn.wf := by
  intro i; unfold TxIn.wf; infer_instance

instance : DecidablePred TxOut.wf := by
  intro o; unfold TxOut.wf; infer_instance

instance : DecidablePred Transaction.wf := by
  intro tx; unfold Transaction.wf; infer_instance

end BitcoinTx

/-!
`teos-common/src/cryptography.rs` itself.  The dispute identifier (`Txid`) is
its 32-byte internal representation.  `sign` / `verify` / `recover_pk` are
thin shadows of `lightning::util::message_signing` (secp256k1 primitives, out
of reach of this development) and are not modelled.
-/

namespace Cryptography

open ByteCodec

/-- `DecryptingError`: `AED` wraps the crate's opaque `aead::Error`; `Encode`
wraps the consensus decoding error. -/
inductive DecryptingError where
  | AED
  | Encode (e : BitcoinTx.DecodeErr)
deriving DecidableEq, Repr

/-- Key derivation inside `encrypt` / `decrypt`:
`sha256::Hash::hash(&secret)` over the txid bytes. -/
def derive_key (secret : List Nat) : List Nat := Sha256.sha256 secret

/-- `Nonce::default()`: the fixed all-zero 12-byte IV. -/
def zeroNonce : List Nat := List.replicate 12 0

/-- The ciphertext `encrypt` produces (the crate's `encrypt` only ever fails
on an impossible buffer overflow, so it is modelled as total and `encrypt`
wraps this in `Ok`). -/
def encryptBytes (message : BitcoinTx.Transaction) (secret : List Nat) : List Nat :=
  Aead.sealAead (derive_key secret) zeroNonce [] message.serialize

/-- `encrypt`: serialize the transaction, derive the key, seal with the
all-zero nonce. -/
def encrypt (message : BitcoinTx.Transaction) (secret : List Nat) :
    Except Unit (List Nat) :=
  .ok (encryptBytes message secret)

/-- `decrypt`: open the blob with the derived key and all-zero nonce, then
parse the plaintext as a transaction. -/
def decrypt (encrypted_blob : List Nat) (secret : List Nat) :
    Except DecryptingError BitcoinTx.Transaction :=
  match Aead.openAead (derive_key secret) zeroNonce [] encrypted_blob with
  | none => .error .AED
  | some tx_bytes =>
    match BitcoinTx.Transaction.deserialize tx_bytes with
    | .ok tx => .ok tx
    | .error e => .error (.Encode e)

/-- Whether the authenticated-decryption tag check on `blob` under `key`
passes: the blob is long enough to carry a tag and the Poly1305 tag over the
ciphertext part verifies. -/
def authTagValid (key blob : List Nat) : Prop :=
  16 ≤ blob.length
    ∧ Poly1305.mac ((ChaCha20.block key 0 zeroNonce).take 32)
        (Aead.macData [] (blob.take (blob.length - 16)))
      = blob.drop (blob.length - 16)

instance : ∀ k, DecidablePred (authTagValid k) := by
  intro k b; unfold authTagValid; infer_instance

/-- The byte string a tag-valid blob decrypts to (before transaction
parsing): the ciphertext part of the blob, xored with the keystream. -/
def decryptedPayload (secret blob : List Nat) : List Nat :=
  List.zipWith HXor.hXor
    (ChaCha20.stream (derive_key secret) zeroNonce 1
      (blob.take (blob.length - 16)).length)
    (blob.take (blob.length - 16))

/-- The repository test constant `HEX_TX`: the 351-byte reference transaction
(its byte count, not 285). -/
def refTxBytes : List Nat :=
  [1, 0, 0, 0, 0, 1, 1, 0, 0, 0, 0, 0, 0, 0,
   0, 0, 0, 0, 0, 0, 0, 0, 0, 0, 0, 0, 0, 0,
   0, 0, 0, 0, 0, 0, 0, 0, 0, 0, 0, 255, 255, 255,
   255, 84, 3, 142, 131, 10, 27, 77, 105, 110, 101, 100, 32, 98,
   121, 32, 65, 110, 116, 80, 111, 111, 108, 55, 52, 50, 194, 0,
   91, 0, 94, 122, 10, 227, 250, 190, 109, 109, 120, 65, 205, 88,
   46, 173, 142, 165, 221, 142, 61, 225, 23, 60, 174, 111, 205, 42,
   83, 199, 54, 46, 187, 127, 182, 248, 21, 96, 79, 224, 124, 190,
   2, 0, 0, 0, 0, 0, 0, 0, 172, 14, 6, 0, 5, 249,
   0, 0, 255, 255, 255, 255, 4, 217, 71, 96, 38, 0, 0, 0,
   0, 25, 118, 169, 20, 17, 219, 228, 140, 198, 182, 23, 249, 198,
   173, 175, 77, 158, 213, 246, 37, 177, 199, 203, 89, 136, 172, 0,
   0, 0, 0, 0, 0, 0, 0, 38, 106, 36, 170, 33, 169, 237,
   114, 72, 198, 239, 221, 216, 217, 155, 253, 221, 127, 73, 159, 11,
   145, 91, 255, 168, 37, 48, 3, 204, 147, 77, 241, 255, 20, 168,
   19, 1, 226, 52, 0, 0, 0, 0, 0, 0, 0, 0, 38, 106,
   36, 185, 225, 27, 109, 112, 84, 147, 126, 19, 243, 149, 41, 214,
   173, 126, 104, 94, 157, 212, 239, 164, 38, 242, 71, 213, 245, 165,
   190, 213, 140, 221, 219, 45, 15, 166, 1, 0, 0, 0, 0, 0,
   0, 0, 0, 43, 106, 41, 82, 83, 75, 66, 76, 79, 67, 75,
   58, 5, 74, 104, 170, 83, 104, 116, 14, 139, 62, 60, 103, 188,
   228, 86, 25, 194, 207, 208, 125, 77, 79, 9, 54, 165, 97, 45,
   45, 0, 52, 250, 10, 1, 32, 0, 0, 0, 0, 0, 0, 0,
   0, 0, 0, 0, 0, 0, 0, 0, 0, 0, 0, 0, 0, 0,
   0, 0, 0, 0, 0, 0, 0, 0, 0, 0, 0, 0, 0, 0,
   0]

/-- The repository test constant `HEX_TXID` as a `Txid`: 32 internal-order bytes
(the reverse of the displayed hex). -/
def refTxid : List Nat :=
  [180, 161, 30, 118, 199, 17, 94, 44, 215, 149, 38, 243, 84, 62,
   107, 236, 116, 219, 161, 85, 232, 205, 77, 96, 76, 124, 101, 97,
   94, 74, 172, 214]

/-- The repository test constant `ENC_BLOB`: the recorded reference ciphertext. -/
def refEncBlob : List Nat :=
  [246, 77, 115, 6, 84, 115, 143, 219, 205, 158, 101, 6, 139, 225,
   123, 193, 171, 180, 78, 116, 248, 151, 121, 133, 204, 228, 142, 119,
   32, 156, 249, 114, 146, 200, 98, 228, 235, 113, 144, 174, 220, 108,
   83, 206, 221, 218, 104, 113, 163, 152, 141, 29, 150, 8, 226, 208,
   221, 122, 31, 89, 118, 158, 65, 6, 24, 167, 2, 144, 1, 71,
   154, 195, 185, 214, 153, 177, 26, 8, 176, 204, 176, 78, 86, 191,
   238, 136, 70, 29, 156, 211, 32, 118, 35, 164, 165, 67, 153, 109,
   211, 128, 83, 35, 201, 60, 214, 32, 105, 99, 99, 5, 170, 241,
   89, 233, 204, 161, 6, 58, 209, 240, 151, 193, 111, 179, 194, 235,
   188, 240, 155, 233, 101, 18, 197, 215, 193, 149, 198, 132, 86, 156,
   190, 139, 121, 121, 135, 11, 4, 202, 218, 152, 6, 183, 97, 5,
   105, 198, 96, 33, 175, 204, 99, 244, 109, 212, 175, 117, 113, 105,
   80, 196, 222, 9, 67, 52, 205, 247, 217, 229, 50, 130, 10, 254,
   41, 210, 98, 29, 215, 153, 32, 199, 224, 236, 193, 8, 83, 81,
   125, 216, 76, 169, 214, 153, 247, 18, 194, 41, 232, 105, 84, 194,
   39, 203, 161, 208, 252, 135, 200, 212, 138, 192, 94, 45, 232, 166,
   188, 152, 10, 253, 250, 252, 215, 6, 78, 65, 28, 141, 118, 6,
   92, 6, 204, 127, 35, 62, 134, 158, 175, 245, 189, 140, 203, 93,
   143, 0, 144, 217, 26, 143, 1, 115, 85, 204, 17, 88, 99, 53,
   110, 207, 6, 205, 218, 155, 48, 144, 150, 234, 118, 109, 3, 61,
   189, 79, 112, 167, 137, 165, 176, 49, 56, 207, 199, 226, 144, 10,
   121, 187, 70, 90, 191, 7, 167, 172, 69, 196, 27, 75, 48, 192,
   8, 212, 178, 153, 170, 217, 208, 1, 207, 69, 172, 208, 126, 71,
   205, 214, 60, 59, 19, 212, 176, 120, 139, 4, 23, 53, 34, 91,
   93, 177, 164, 58, 33, 66, 49, 31, 105, 84, 120, 22, 142, 49,
   222, 178, 96, 112, 41, 118, 253, 112, 208, 114, 77, 237, 132, 167,
   195, 248, 155]

/-- The reference transaction, decoded (one coinbase-style segwit input, four
outputs). -/
def refTx : BitcoinTx.Transaction :=
  ⟨1, 0,
   [⟨⟨[0, 0, 0, 0, 0, 0, 0, 0, 0, 0, 0, 0, 0, 0,
       0, 0, 0, 0, 0, 0, 0, 0, 0, 0, 0, 0, 0, 0,
       0, 0, 0, 0], 4294967295⟩,
     [3, 142, 131, 10, 27, 77, 105, 110, 101, 100, 32, 98, 121, 32,
      65, 110, 116, 80, 111, 111, 108, 55, 52, 50, 194, 0, 91, 0,
      94, 122, 10, 227, 250, 190, 109, 109, 120, 65, 205, 88, 46, 173,
      142, 165, 221, 142, 61, 225, 23, 60, 174, 111, 205, 42, 83, 199,
      54, 46, 187, 127, 182, 248, 21, 96, 79, 224, 124, 190, 2, 0,
      0, 0, 0, 0, 0, 0, 172, 14, 6, 0, 5, 249, 0, 0],
     4294967295, [[0, 0, 0, 0, 0, 0, 0, 0, 0, 0, 0, 0, 0, 0,
       0, 0, 0, 0, 0, 0, 0, 0, 0, 0, 0, 0, 0, 0,
       0, 0, 0, 0]]⟩],
   [⟨643844057, [118, 169, 20, 17, 219, 228, 140, 198, 182, 23, 249, 198, 173, 175,
       77, 158, 213, 246, 37, 177, 199, 203, 89, 136, 172]⟩,
    ⟨0, [106, 36, 170, 33, 169, 237, 114, 72, 198, 239, 221, 216, 217, 155,
       253, 221, 127, 73, 159, 11, 145, 91, 255, 168, 37, 48, 3, 204,
       147, 77, 241, 255, 20, 168, 19, 1, 226, 52]⟩,
    ⟨0, [106, 36, 185, 225, 27, 109, 112, 84, 147, 126, 19, 243, 149, 41,
       214, 173, 126, 104, 94, 157, 212, 239, 164, 38, 242, 71, 213, 245,
       165, 190, 213, 140, 221, 219, 45, 15, 166, 1]⟩,
    ⟨0, [106, 41, 82, 83, 75, 66, 76, 79, 67, 75, 58, 5, 74, 104,
       170, 83, 104, 116, 14, 139, 62, 60, 103, 188, 228, 86, 25, 194,
       207, 208, 125, 77, 79, 9, 54, 165, 97, 45, 45, 0, 52, 250,
       10]⟩]⟩
end Cryptography

namespace ByteCodec

theorem length_natToLE (k : Nat) : ∀ n, (natToLE k n).length = k := by
  induction k with
  | zero => intro n; rfl
  | succ k ih => intro n; simp [natToLE, ih]

theorem natToLE_bytes (k : Nat) : ∀ n, wfBytes (natToLE k n) := by
  induction k with
  | zero => intro n b hb; simp [natToLE] at hb
  | succ k ih =>
    intro n b hb
    simp only [natToLE, List.mem_cons] at hb
    rcases hb with h | h
    · subst h; exact Nat.mod_lt _ (by omega)
    · exact ih _ _ h

theorem leNat_nil : leNat [] = 0 := rfl

theorem leNat_cons (b : Nat) (bs : List Nat) :
    leNat (b :: bs) = b + 256 * leNat bs := rfl

theorem leNat_natToLE (k : Nat) : ∀ n, n < 256 ^ k → leNat (natToLE k n) = n := by
  induction k with
  | zero => intro n hn; interval_cases n; rfl
  | succ k ih =>
    intro n hn
    rw [pow_succ] at hn
    rw [natToLE, leNat_cons,
        ih (n / 256) (Nat.div_lt_of_lt_mul (by omega))]
    omega

end ByteCodec

namespace BitcoinTx

open ByteCodec

theorem exceptBind_ok {ε α β : Type} (a : α) (f : α → Except ε β) :
    (Except.ok a >>= f) = f a := rfl

theorem readBytes_append : ∀ (bs r : List Nat),
    readBytes bs.length (bs ++ r) = .ok (bs, r) := by
  intro bs
  induction bs with
  | nil => intro r; rfl
  | cons b t ih =>
    intro r
    simp [readBytes, ih r, exceptBind_ok]

theorem readLE_natToLE (k n : Nat) (hn : n < 256 ^ k) (r : List Nat) :
    readLE k (natToLE k n ++ r) = .ok (n, r) := by
  have h1 := readBytes_append (natToLE k n) r
  rw [length_natToLE] at h1
  simp [readLE, h1, exceptBind_ok, leNat_natToLE k n hn]

theorem readVarInt_varint (n : Nat) (hn : n < 2 ^ 64) (r : List Nat) :
    readVarInt (varint n ++ r) = .ok (n, r) := by
  by_cases h1 : n < 253
  · have h255 : ¬ n = 255 := by omega
    have h254 : ¬ n = 254 := by omega
    have h253 : ¬ n = 253 := by omega
    simp only [varint, if_pos h1, List.cons_append, List.nil_append]
    simp [readVarInt, readByte, exceptBind_ok, h255, h254, h253]
  · by_cases h2 : n ≤ 0xFFFF
    · simp only [varint, if_neg h1, if_pos h2, List.cons_append]
      simp [readVarInt, readByte, exceptBind_ok,
            readLE_natToLE 2 n (by omega) r, h1]
    · by_cases h3 : n ≤ 0xFFFFFFFF
      · have hmin : ¬ n < 65536 := by omega
        simp only [varint, if_neg h1, if_neg h2, if_pos h3, List.cons_append]
        simp [readVarInt, readByte, exceptBind_ok,
              readLE_natToLE 4 n (by omega) r, hmin]
      · have hmin : ¬ n < 4294967296 := by omega
        simp only [varint, if_neg h1, if_neg h2, if_neg h3, List.cons_append]
        simp [readVarInt, readByte, exceptBind_ok,
              readLE_natToLE 8 n hn r, hmin]

theorem readVarBytes_encodeBytes (bs : List Nat) (hl : bs.length < 2 ^ 64)
    (r : List Nat) :
    readVarBytes (encodeBytes bs ++ r) = .ok (bs, r) := by
  simp [readVarBytes, encodeBytes, List.append_assoc,
        readVarInt_varint bs.length hl (bs ++ r),
        exceptBind_ok, readBytes_append]

theorem readVec_roundtrip {α : Type} (p : List Nat → Except DecodeErr (α × List Nat))
    (f : α → List Nat) :
    ∀ (xs : List α), (∀ x ∈ xs, ∀ r, p (f x ++ r) = .ok (x, r)) →
      ∀ r, readVec p xs.length ((xs.map f).flatten ++ r) = .ok (xs, r) := by
  intro xs
  induction xs with
  | nil => intro _ r; rfl
  | cons x t ih =>
    intro h r
    have hx := h x (by simp) ((t.map f).flatten ++ r)
    simp only [List.map_cons, List.flatten_cons, List.length_cons,
               List.append_assoc]
    simp [readVec, hx, exceptBind_ok, ih (fun y hy => h y (by simp [hy]))]

theorem readVec_roundtrip_map {α : Type}
    (p : List Nat → Except DecodeErr (α × List Nat))
    (f : α → List Nat) (g : α → α) :
    ∀ (xs : List α), (∀ x ∈ xs, ∀ r, p (f x ++ r) = .ok (g x, r)) →
      ∀ r, readVec p xs.length ((xs.map f).flatten ++ r) = .ok (xs.map g, r) := by
  intro xs
  induction xs with
  | nil => intro _ r; rfl
  | cons x t ih =>
    intro h r
    have hx := h x (by simp) ((t.map f).flatten ++ r)
    simp only [List.map_cons, List.flatten_cons, List.length_cons,
               List.append_assoc]
    simp [readVec, hx, exceptBind_ok, ih (fun y hy => h y (by simp [hy]))]

theorem readOutPoint_roundtrip (o : OutPoint) (ho : o.wf) (r : List Nat) :
    readOutPoint (encodeOutPoint o ++ r) = .ok (o, r) := by
  obtain ⟨hlen, _, hv⟩ := ho
  have h1 := readBytes_append o.txid (natToLE 4 o.vout ++ r)
  rw [hlen] at h1
  simp [readOutPoint, encodeOutPoint, List.append_assoc, h1, exceptBind_ok,
        readLE_natToLE 4 o.vout hv r]

theorem readTxIn_roundtrip (i : TxIn) (hi : i.wf) (r : List Nat) :
    readTxIn (encodeTxIn i ++ r)
      = .ok (⟨i.previous_output, i.script_sig, i.sequence, []⟩, r) := by
  obtain ⟨hop, _, hsl, hseq, _⟩ := hi
  simp [readTxIn, encodeTxIn, List.append_assoc,
        readOutPoint_roundtrip i.previous_output hop, exceptBind_ok,
        readVarBytes_encodeBytes i.script_sig hsl,
        readLE_natToLE 4 i.sequence hseq]

theorem readTxOut_roundtrip (o : TxOut) (ho : o.wf) (r : List Nat) :
    readTxOut (encodeTxOut o ++ r) = .ok (o, r) := by
  obtain ⟨hv, _, hsl⟩ := ho
  simp [readTxOut, encodeTxOut, List.append_assoc,
        readLE_natToLE 8 o.value hv, exceptBind_ok,
        readVarBytes_encodeBytes o.script_pubkey hsl]

theorem readWitness_roundtrip (w : List (List Nat)) (hw : w.length < 2 ^ 64)
    (hitems : ∀ x ∈ w, x.length < 2 ^ 64) (r : List Nat) :
    readWitness (encodeVec encodeBytes w ++ r) = .ok (w, r) := by
  simp [readWitness, encodeVec, List.append_assoc,
        readVarInt_varint w.length hw, exceptBind_ok,
        readVec_roundtrip readVarBytes encodeBytes w
          (fun x hx r2 => readVarBytes_encodeBytes x (hitems x hx) r2)]

theorem readWitnesses_roundtrip :
    ∀ (inputs : List TxIn),
      (∀ i ∈ inputs, i.witness.length < 2 ^ 64
        ∧ ∀ x ∈ i.witness, x.length < 2 ^ 64) →
      ∀ r,
        readWitnesses
          (inputs.map fun i => ⟨i.previous_output, i.script_sig, i.sequence, []⟩)
          ((inputs.map fun i => encodeVec encodeBytes i.witness).flatten ++ r)
        = .ok (inputs, r) := by
  intro inputs
  induction inputs with
  | nil => intro _ r; rfl
  | cons i t ih =>
    intro h r
    obtain ⟨hw, hitems⟩ := h i (by simp)
    simp only [List.map_cons, List.flatten_cons, List.append_assoc]
    simp [readWitnesses, exceptBind_ok,
          readWitness_roundtrip i.witness hw hitems,
          ih (fun y hy => h y (by simp [hy]))]

theorem readByte_cons (b : Nat) (bs : List Nat) :
    readByte (b :: bs) = .ok (b, bs) := rfl

theorem readVarInt_zero_cons (bs : List Nat) :
    readVarInt (0 :: bs) = .ok (0, bs) := rfl

theorem readVec_zero {α : Type} (p : List Nat → Except DecodeErr (α × List Nat))
    (bs : List Nat) : readVec p 0 bs = .ok ([], bs) := rfl

theorem encodeVec_append {α : Type} (f : α → List Nat) (xs : List α)
    (r : List Nat) :
    encodeVec f xs ++ r = varint xs.length ++ ((xs.map f).flatten ++ r) := by
  simp [encodeVec, List.append_assoc]

theorem consensusDecodeTx_serialize (tx : Transaction) (h : tx.wf)
    (r : List Nat) :
    consensusDecodeTx (tx.serialize ++ r) = .ok (tx, r) := by
  obtain ⟨hver, hlt, hilen, holen, hins, houts⟩ := h
  have houte : ∀ x ∈ tx.output, ∀ r2, readTxOut (encodeTxOut x ++ r2) = .ok (x, r2) :=
    fun x hx r2 => readTxOut_roundtrip x (houts x hx) r2
  by_cases hw : (tx.input.isEmpty || tx.input.any fun i => !i.witness.isEmpty) = true
  · -- segwit framing
    have hine : ∀ x ∈ tx.input, ∀ r2, readTxIn (encodeTxIn x ++ r2)
        = .ok (⟨x.previous_output, x.script_sig, x.sequence, []⟩, r2) :=
      fun x hx r2 => readTxIn_roundtrip x (hins x hx) r2
    have hwits : ∀ i ∈ tx.input, i.witness.length < 2 ^ 64
        ∧ ∀ x ∈ i.witness, x.length < 2 ^ 64 := by
      intro i hi
      obtain ⟨_, _, _, _, hwl, hwi⟩ := hins i hi
      exact ⟨hwl, fun x hx => (hwi x hx).2⟩
    have hguard : (!(tx.input.isEmpty)
        && tx.input.all fun i => i.witness.isEmpty) = false := by
      rcases Bool.or_eq_true_iff.mp hw with hie | hany
      · simp [List.isEmpty_eq_true.mp hie]
      · obtain ⟨x, hx, hxe⟩ := List.any_eq_true.mp hany
        have hall : tx.input.all (fun i => i.witness.isEmpty) = false := by
          rcases hb : tx.input.all fun i => i.witness.isEmpty with _ | _
          · rfl
          · have := List.all_eq_true.mp hb x hx
            simp [this] at hxe
        simp [hall]
    simp only [Transaction.serialize, if_pos hw, List.append_assoc,
               List.cons_append]
    simp only [consensusDecodeTx]
    simp only [readLE_natToLE 4 tx.version hver, exceptBind_ok]
    simp only [readVarInt_zero_cons, exceptBind_ok]
    simp only [readVec_zero, exceptBind_ok]
    simp only [List.isEmpty_nil, if_true, readByte_cons, exceptBind_ok,
               if_pos rfl]
    rw [encodeVec_append]
    simp only [readVarInt_varint tx.input.length hilen, exceptBind_ok]
    simp only [readVec_roundtrip_map readTxIn encodeTxIn
        (fun i => ⟨i.previous_output, i.script_sig, i.sequence, []⟩)
        tx.input hine, exceptBind_ok]
    rw [encodeVec_append]
    simp only [readVarInt_varint tx.output.length holen, exceptBind_ok]
    simp only [readVec_roundtrip readTxOut encodeTxOut tx.output houte,
               exceptBind_ok]
    simp only [readWitnesses_roundtrip tx.input hwits, exceptBind_ok]
    simp only [hguard, Bool.false_eq_true, if_false]
    simp only [readLE_natToLE 4 tx.lock_time hlt, exceptBind_ok]
  · -- legacy framing
    simp only [Bool.or_eq_true, not_or, Bool.not_eq_true] at hw
    obtain ⟨hie, hany⟩ := hw
    have hempty : ∀ i ∈ tx.input, i.witness = [] := by
      intro i hi
      rcases hb : i.witness with _ | _
      · rfl
      · exfalso
        have : tx.input.any (fun i => !i.witness.isEmpty) = true :=
          List.any_eq_true.mpr ⟨i, hi, by simp [hb]⟩
        rw [hany] at this
        exact Bool.false_ne_true this
    have hine : ∀ x ∈ tx.input, ∀ r2, readTxIn (encodeTxIn x ++ r2)
        = .ok (x, r2) := by
      intro x hx r2
      have hti := readTxIn_roundtrip x (hins x hx) r2
      rwa [show (⟨x.previous_output, x.script_sig, x.sequence, []⟩ : TxIn) = x
        from by rw [← hempty x hx]] at hti
    have hienf : tx.input.isEmpty = false := hie
    simp only [Transaction.serialize, hienf, hany, Bool.or_self,
               Bool.false_eq_true, if_false, List.append_assoc]
    simp only [consensusDecodeTx]
    simp only [readLE_natToLE 4 tx.version hver, exceptBind_ok]
    rw [encodeVec_append]
    simp only [readVarInt_varint tx.input.length hilen, exceptBind_ok]
    simp only [readVec_roundtrip readTxIn encodeTxIn tx.input hine,
               exceptBind_ok]
    simp only [hienf, Bool.false_eq_true, if_false]
    rw [encodeVec_append]

    simp only [readVarInt_varint tx.output.length holen, exceptBind_ok]
    simp only [readVec_roundtrip readTxOut encodeTxOut tx.output houte,
               exceptBind_ok]
    simp only [readLE_natToLE 4 tx.lock_time hlt, exceptBind_ok]

theorem deserialize_serialize (tx : Transaction) (h : tx.wf) :
    Transaction.deserialize tx.serialize = .ok tx := by
  have hc := consensusDecodeTx_serialize tx h []
  rw [List.append_nil] at hc
  simp [Transaction.deserialize, hc, exceptBind_ok]

end BitcoinTx

namespace ByteCodec

theorem length_natToBE (k : Nat) : ∀ n, (natToBE k n).length = k := by
  induction k with
  | zero => intro n; rfl
  | succ k ih => intro n; simp [natToBE, ih]

theorem length_flatten_map_const {α : Type} (f : α → List Nat) (c : Nat)
    (hf : ∀ x, (f x).length = c) (l : List α) :
    (l.map f).flatten.length = c * l.length := by
  induction l with
  | nil => simp
  | cons x t ih => simp [ih, hf x]; ring

end ByteCodec

namespace Sha256

open ByteCodec

theorem length_roundFn (s : List Nat) (kw : Nat × Nat) :
    (roundFn s kw).length = s.length := by
  unfold roundFn
  split
  · simp_all
  · rfl

theorem length_foldl_roundFn (l : List (Nat × Nat)) :
    ∀ s, (l.foldl roundFn s).length = s.length := by
  induction l with
  | nil => intro s; rfl
  | cons x t ih => intro s; rw [List.foldl_cons, ih, length_roundFn]

theorem length_compress (hs block : List Nat) (h : hs.length = 8) :
    (compress hs block).length = 8 := by
  simp [compress, List.length_zipWith, length_foldl_roundFn, h]

theorem length_compressBlocks : ∀ (ws hs : List Nat), hs.length = 8 →
    (compressBlocks hs ws).length = 8
  | _ :: _ :: _ :: _ :: _ :: _ :: _ :: _
      :: _ :: _ :: _ :: _ :: _ :: _ :: _ :: _ :: rest, hs, h =>
    length_compressBlocks rest _ (length_compress hs _ h)
  | [], _, h => h
  | [_], _, h => h
  | [_, _], _, h => h
  | [_, _, _], _, h => h
  | [_, _, _, _], _, h => h
  | [_, _, _, _, _], _, h => h
  | [_, _, _, _, _, _], _, h => h
  | [_, _, _, _, _, _, _], _, h => h
  | [_, _, _, _, _, _, _, _], _, h => h
  | [_, _, _, _, _, _, _, _, _], _, h => h
  | [_, _, _, _, _, _, _, _, _, _], _, h => h
  | [_, _, _, _, _, _, _, _, _, _, _], _, h => h
  | [_, _, _, _, _, _, _, _, _, _, _, _], _, h => h
  | [_, _, _, _, _, _, _, _, _, _, _, _, _], _, h => h
  | [_, _, _, _, _, _, _, _, _, _, _, _, _, _], _, h => h
  | [_, _, _, _, _, _, _, _, _, _, _, _, _, _, _], _, h => h

theorem length_sha256 (msg : List Nat) : (sha256 msg).length = 32 := by
  unfold sha256
  rw [length_flatten_map_const (natToBE 4) 4 (fun x => length_natToBE 4 x),
      length_compressBlocks (toWordsBE (pad msg)) H0 (by rfl)]

end Sha256

namespace ChaCha20

open ByteCodec

theorem length_qround (s : List Nat) (a b c d : Nat) :
    (qround s a b c d).length = s.length := by
  simp [qround]

theorem length_doubleRound (s : List Nat) :
    (doubleRound s).length = s.length := by
  simp [doubleRound, length_qround]

theorem length_iterate_doubleRound :
    ∀ (n : Nat) (s : List Nat), (Nat.iterate doubleRound n s).length = s.length
  | 0, _ => rfl
  | n + 1, s => by
    rw [Function.iterate_succ_apply, length_iterate_doubleRound n,
        length_doubleRound]

theorem length_toWordsLE : ∀ (bs : List Nat), (toWordsLE bs).length = bs.length / 4
  | [] => rfl
  | [_] => by simp [toWordsLE]
  | [_, _] => by simp [toWordsLE]
  | [_, _, _] => by simp [toWordsLE]
  | _ :: _ :: _ :: _ :: rest => by
    simp [toWordsLE, length_toWordsLE rest]
    omega

theorem length_block (key nonce : List Nat) (c : Nat)
    (hk : key.length = 32) (hn : nonce.length = 12) :
    (block key c nonce).length = 64 := by
  simp only [block]
  rw [length_flatten_map_const (natToLE 4) 4 (fun x => length_natToLE 4 x),
      List.length_zipWith, length_iterate_doubleRound]
  simp [length_toWordsLE, hk, hn]

theorem length_blocks (key nonce : List Nat)
    (hk : key.length = 32) (hn : nonce.length = 12) :
    ∀ (m c : Nat), (blocks key nonce c m).length = 64 * m := by
  intro m
  induction m with
  | zero => intro c; rfl
  | succ k ih =>
    intro c
    simp [blocks, length_block key nonce c hk hn, ih (c + 1)]
    ring

theorem length_stream (key nonce : List Nat)
    (hk : key.length = 32) (hn : nonce.length = 12) (c n : Nat) :
    (stream key nonce c n).length = n := by
  simp [stream, List.length_take, length_blocks key nonce hk hn]
  omega

theorem zipWith_xor_cancel : ∀ (ks m : List Nat), m.length ≤ ks.length →
    List.zipWith HXor.hXor ks (List.zipWith HXor.hXor ks m) = m
  | _, [], _ => by simp
  | [], _ :: _, h => by simp at h
  | a :: s, b :: t, h => by
    simp only [List.zipWith_cons_cons]
    rw [Nat.xor_cancel_left, zipWith_xor_cancel s t (by simpa using h)]

end ChaCha20

namespace Aead

open ByteCodec

theorem open_seal (key nonce aad pt : List Nat)
    (hk : key.length = 32) (hn : nonce.length = 12) :
    openAead key nonce aad (sealAead key nonce aad pt) = some pt := by
  have hksl : (ChaCha20.stream key nonce 1 pt.length).length = pt.length :=
    ChaCha20.length_stream key nonce hk hn 1 pt.length
  simp only [sealAead, openAead]
  set ks := ChaCha20.stream key nonce 1 pt.length with hks
  set ct := List.zipWith HXor.hXor ks pt with hct
  have hctl : ct.length = pt.length := by
    rw [hct, List.length_zipWith]
    omega
  set pk := (ChaCha20.block key 0 nonce).take 32 with hpk
  set tag := Poly1305.mac pk (macData aad ct) with htag
  have htagl : tag.length = 16 := by
    rw [htag]; simp [Poly1305.mac, length_natToLE]
  have hlen : (ct ++ tag).length = ct.length + 16 := by
    simp [htagl]
  rw [if_neg (by omega)]
  have hidx : (ct ++ tag).length - 16 = ct.length := by omega
  rw [hidx, List.take_left, List.drop_left, if_pos rfl, hctl, ← hks, hct,
      ChaCha20.zipWith_xor_cancel ks pt (by omega)]

end Aead

namespace Cryptography

open ByteCodec

theorem decrypt_encryptBytes (tx : BitcoinTx.Transaction) (D : List Nat)
    (htx : tx.wf) : decrypt (encryptBytes tx D) D = .ok tx := by
  have ho := Aead.open_seal (derive_key D) zeroNonce [] tx.serialize
    (Sha256.length_sha256 D) rfl
  simp [decrypt, encryptBytes, ho, BitcoinTx.deserialize_serialize tx htx]

/-- C3: decrypting the result of encrypting a well-formed transaction under a
32-byte dispute identifier, with that identifier as the secret, succeeds and
returns the original transaction. -/
theorem decrypt_encrypt_roundtrip (tx : BitcoinTx.Transaction) (D : List Nat)
    (hD : D.length = 32 ∧ wfBytes D) (htx : tx.wf) (b : List Nat)
    (hb : encrypt tx D = .ok b) : decrypt b D = .ok tx := by
  have hb2 : b = encryptBytes tx D := by
    have := hb.symm
    simpa [encrypt] using this
  rw [hb2]
  exact decrypt_encryptBytes tx D htx

/-- Witness for C3 at a concrete one-input, one-output transaction and a
concrete 32-byte dispute identifier. -/
theorem decrypt_encrypt_roundtrip_witness :
    decrypt
      (encryptBytes
        ⟨1, 0, [⟨⟨List.replicate 32 0, 0⟩, [], 4294967295, []⟩], [⟨0, []⟩]⟩
        (List.replicate 32 7))
      (List.replicate 32 7)
      = .ok ⟨1, 0, [⟨⟨List.replicate 32 0, 0⟩, [], 4294967295, []⟩], [⟨0, []⟩]⟩ :=
  decrypt_encrypt_roundtrip
    ⟨1, 0, [⟨⟨List.replicate 32 0, 0⟩, [], 4294967295, []⟩], [⟨0, []⟩]⟩
    (List.replicate 32 7) ⟨by decide, by decide⟩ (by decide) _ rfl

/-- C8: `decrypt` fails with `DecryptingError::AED` exactly when the
authenticated-decryption tag check fails (that covers wrong keys, corrupted
blobs, blobs not produced by `encrypt`, and blobs too short to carry a tag),
fails with `DecryptingError::Encode` exactly when the tag verifies but the
decrypted payload does not parse as a consensus-valid transaction encoding,
and succeeds exactly when the tag verifies and the payload parses. -/
theorem decrypt_error_taxonomy (blob D : List Nat) :
    (decrypt blob D = .error .AED ↔ ¬ authTagValid (derive_key D) blob)
    ∧ (∀ e, decrypt blob D = .error (.Encode e)
        ↔ authTagValid (derive_key D) blob
          ∧ BitcoinTx.Transaction.deserialize (decryptedPayload D blob)
              = .error e)
    ∧ (∀ tx, decrypt blob D = .ok tx
        ↔ authTagValid (derive_key D) blob
          ∧ BitcoinTx.Transaction.deserialize (decryptedPayload D blob)
              = .ok tx) := by
  by_cases h1 : blob.length < 16
  · have hat : ¬ authTagValid (derive_key D) blob := by
      intro hc
      exact absurd hc.1 (by omega)
    refine ⟨by simp [decrypt, Aead.openAead, if_pos h1, hat], ?_, ?_⟩
    · intro e; simp [decrypt, Aead.openAead, if_pos h1, hat]
    · intro tx; simp [decrypt, Aead.openAead, if_pos h1, hat]
  · by_cases h2 : Poly1305.mac ((ChaCha20.block (derive_key D) 0 zeroNonce).take 32)
        (Aead.macData [] (blob.take (blob.length - 16)))
        = blob.drop (blob.length - 16)
    · have hat : authTagValid (derive_key D) blob := ⟨by omega, h2⟩
      have ho : Aead.openAead (derive_key D) zeroNonce [] blob
          = some (decryptedPayload D blob) := by
        simp [Aead.openAead, if_neg h1, if_pos h2, decryptedPayload]
      cases hd : BitcoinTx.Transaction.deserialize (decryptedPayload D blob) with
      | ok tx0 =>
        refine ⟨by simp [decrypt, ho, hd, hat], ?_, ?_⟩
        · intro e; simp [decrypt, ho, hd, hat]
        · intro tx; simp [decrypt, ho, hd, hat]
      | error e0 =>
        refine ⟨by simp [decrypt, ho, hd, hat], ?_, ?_⟩
        · intro e; simp [decrypt, ho, hd, hat]
        · intro tx; simp [decrypt, ho, hd, hat]
    · have hat : ¬ authTagValid (derive_key D) blob := fun hc => h2 hc.2
      have ho : Aead.openAead (derive_key D) zeroNonce [] blob = none := by
        simp [Aead.openAead, if_neg h1, h2]
      refine ⟨by simp [decrypt, ho, hat], ?_, ?_⟩
      · intro e; simp [decrypt, ho, hat]
      · intro tx; simp [decrypt, ho, hat]

/-- C9 (counterexample): the recorded reference transaction of the repository
test vector is 351 bytes long, not 285 as the claim states. -/
theorem ref_tx_is_351_bytes :
    refTxBytes.length = 351 ∧ refTx.serialize.length = 351
    ∧ refTxBytes.length ≠ 285 :=
  ⟨by rfl, by rfl, by decide⟩

/-- C9 (amended): `encrypt` is deterministic — a pure function of the
transaction and the dispute identifier, keyed by the SHA-256 hash of the
identifier with the fixed all-zero nonce — and encrypting the 351-byte
reference transaction under the 32-byte reference dispute identifier
reproduces the recorded reference ciphertext byte for byte. -/
theorem encrypt_reference_vector :
    BitcoinTx.Transaction.deserialize refTxBytes = .ok refTx
    ∧ refTx.serialize = refTxBytes
    ∧ refTxid.length = 32
    ∧ encrypt refTx refTxid = .ok refEncBlob :=
  ⟨by rfl, by rfl, by rfl, by rfl⟩

end Cryptography

namespace ChainMonitorModel

theorem poll_better_store_fail (s : MonitorState) (h : ValidatedBlockHeader)
    (ev : List ListenEvent) :
    poll_best_tip s (.ok (.Better h) ev) true
      = (.panicked ⟨h, s.dbm⟩,
         ev.map .listen ++ [.log_debug "Updating best tip", .set_last_known h]) := by
  simp [poll_best_tip, DBM.store_last_known_block]

theorem poll_better_store_ok (s : MonitorState) (h : ValidatedBlockHeader)
    (ev : List ListenEvent) :
    poll_best_tip s (.ok (.Better h) ev) false
      = (.ok ⟨h, ⟨some h.block_hash⟩⟩,
         ev.map .listen ++ [.log_debug "Updating best tip", .set_last_known h,
                            .store_write h.block_hash]) := by
  simp [poll_best_tip, DBM.store_last_known_block]

/-- C1 (counterexample): at a concrete state, a poll yielding an Advanced
outcome whose subsequent durable write fails does not merely report the
failure and proceed to the next wait step: the `.unwrap()` on the store result
panics, the run ends `.crashed` after this single iteration, and the scheduled
second iteration never polls. -/
theorem store_failure_crashes_loop :
    monitor_chain ⟨⟨0, 1⟩, ⟨none⟩⟩
        [⟨.ok (.Better ⟨2, 5⟩) [], true, false⟩, ⟨.ok .Common [], false, false⟩]
      = (.crashed ⟨⟨2, 5⟩, ⟨none⟩⟩,
         [.log_debug "Updating best tip", .set_last_known ⟨2, 5⟩], 1) := by
  rfl

/-- C1 (amended): when the durable write after an Advanced outcome fails, the
`.unwrap()` in `poll_best_tip` panics: the iteration ends with the in-memory
header updated but nothing persisted, the monitor loop crashes, and no further
iteration runs. -/
theorem store_failure_panics (s : MonitorState) (h : ValidatedBlockHeader)
    (ev : List ListenEvent) (sd : Bool) (rest : List IterInput) :
    poll_best_tip s (.ok (.Better h) ev) true
      = (.panicked ⟨h, s.dbm⟩,
         ev.map .listen ++ [.log_debug "Updating best tip", .set_last_known h])
    ∧ monitor_chain s (⟨.ok (.Better h) ev, true, sd⟩ :: rest)
      = (.crashed ⟨h, s.dbm⟩,
         ev.map .listen ++ [.log_debug "Updating best tip", .set_last_known h],
         1) := by
  refine ⟨poll_better_store_fail s h ev, ?_⟩
  simp [monitor_chain, poll_better_store_fail s h ev]

/-- C2 (counterexample): after construction (`ChainMonitor::new` persists
nothing) and a completed Worse poll — an externally observable instant — the
in-memory block hash (5) is not the last persisted value (the store is empty),
and in an Advanced step the trace records the in-memory assignment strictly
before the durable write, not after it. -/
theorem persistence_invariant_fails_at_start :
    ¬ persisted_matches (ChainMonitor.new ⟨5, 10⟩ ⟨none⟩)
    ∧ poll_best_tip (ChainMonitor.new ⟨5, 10⟩ ⟨none⟩) (.ok (.Worse ⟨4, 10⟩) []) false
      = (.ok (ChainMonitor.new ⟨5, 10⟩ ⟨none⟩),
         [.log_warn "Worse tip found",
          .log_warn "New tip has the same work as the previous one"])
    ∧ (poll_best_tip (ChainMonitor.new ⟨5, 10⟩ ⟨none⟩)
          (.ok (.Better ⟨7, 20⟩) []) false).2
      = [.log_debug "Updating best tip", .set_last_known ⟨7, 20⟩,
         .store_write 7] :=
  ⟨by decide, by rfl, by rfl⟩

/-- C2 (amended): construction persists nothing, so before the first
successful Advanced write the in-memory hash need not match durable storage;
within an Advanced step the in-memory update precedes the durable write, and a
completed Advanced step ends with the in-memory hash equal to the value just
persisted. -/
theorem persistence_matches_after_advance (h0 : ValidatedBlockHeader) (d : DBM)
    (s : MonitorState) (h : ValidatedBlockHeader) (ev : List ListenEvent) :
    (ChainMonitor.new h0 d).dbm = d
    ∧ (poll_best_tip s (.ok (.Better h) ev) false).1
        = .ok ⟨h, ⟨some h.block_hash⟩⟩
    ∧ persisted_matches ⟨h, ⟨some h.block_hash⟩⟩
    ∧ (poll_best_tip s (.ok (.Better h) ev) false).2
        = ev.map .listen ++ [.log_debug "Updating best tip", .set_last_known h,
                             .store_write h.block_hash] := by
  refine ⟨rfl, ?_, rfl, ?_⟩ <;> simp [poll_better_store_ok]

/-- C4: a poll yielding a Regressed (Worse) outcome mutates nothing: the
monitor state (hence `last_known_block_header` and the persistence store) is
returned unchanged, the trace holds no completed store write, and — under the
block-data source contract — no listen callbacks occur during the iteration. -/
theorem worse_poll_is_frame (s : MonitorState) (worse : ValidatedBlockHeader)
    (ev : List ListenEvent) (w : Bool)
    (hc : source_contract (.ok (.Worse worse) ev)) :
    (poll_best_tip s (.ok (.Worse worse) ev) w).1 = .ok s
    ∧ (poll_best_tip s (.ok (.Worse worse) ev) w).2.filter Event.is_listen = []
    ∧ (poll_best_tip s (.ok (.Worse worse) ev) w).2.filter Event.is_store_write
        = [] := by
  have hev : ev = [] := hc
  subst hev
  by_cases hw : worse.chainwork = s.last_known_block_header.chainwork <;>
    simp [poll_best_tip, Event.is_listen, Event.is_store_write, hw]

/-- Witness for C4 at a concrete state and candidate tip. -/
theorem worse_poll_is_frame_witness :
    (poll_best_tip ⟨⟨3, 9⟩, ⟨some 3⟩⟩ (.ok (.Worse ⟨2, 4⟩) []) false).1
        = .ok ⟨⟨3, 9⟩, ⟨some 3⟩⟩
    ∧ (poll_best_tip ⟨⟨3, 9⟩, ⟨some 3⟩⟩
          (.ok (.Worse ⟨2, 4⟩) []) false).2.filter Event.is_listen = []
    ∧ (poll_best_tip ⟨⟨3, 9⟩, ⟨some 3⟩⟩
          (.ok (.Worse ⟨2, 4⟩) []) false).2.filter Event.is_store_write = [] :=
  worse_poll_is_frame ⟨⟨3, 9⟩, ⟨some 3⟩⟩ ⟨2, 4⟩ [] false (by decide)

/-- C5: every poll iteration that yields an Advanced (Better) outcome and
completes ends with `last_known_block_header` equal to the new header, its
block hash stored by `store_last_known_block`, and the completed durable write
in the trace. -/
theorem better_poll_updates_and_persists (s : MonitorState)
    (h : ValidatedBlockHeader) (ev : List ListenEvent) (w : Bool)
    (s1 : MonitorState)
    (hp : (poll_best_tip s (.ok (.Better h) ev) w).1 = .ok s1) :
    s1.last_known_block_header = h
    ∧ s1.dbm.last_known_block = some h.block_hash
    ∧ Event.store_write h.block_hash ∈ (poll_best_tip s (.ok (.Better h) ev) w).2 := by
  cases w with
  | true => simp [poll_better_store_fail] at hp
  | false =>
    rw [poll_better_store_ok] at hp ⊢
    simp only [Prod.fst] at hp
    cases hp
    simp

/-- Witness for C5 at a concrete state and new tip. -/
theorem better_poll_updates_and_persists_witness :
    (⟨⟨8, 30⟩, ⟨some 8⟩⟩ : MonitorState).last_known_block_header = ⟨8, 30⟩
    ∧ (⟨⟨8, 30⟩, ⟨some 8⟩⟩ : MonitorState).dbm.last_known_block = some 8
    ∧ Event.store_write 8
        ∈ (poll_best_tip ⟨⟨1, 2⟩, ⟨none⟩⟩ (.ok (.Better ⟨8, 30⟩) []) false).2 :=
  better_poll_updates_and_persists ⟨⟨1, 2⟩, ⟨none⟩⟩ ⟨8, 30⟩ [] false
    ⟨⟨8, 30⟩, ⟨some 8⟩⟩ (by rfl)

/-- C6: a poll-step failure leaves the monitor state (and so the store)
unchanged, produces exactly one error log line, does not panic, and the loop
run continues exactly as for an Unchanged (Common) outcome: same final result,
same iteration count, identical trace apart from that first log line. -/
theorem poll_error_is_frame (s : MonitorState) (w sd : Bool)
    (rest : List IterInput) :
    poll_best_tip s .err w = (.ok s, [.log_error "Connection lost with bitcoind"])
    ∧ (monitor_chain s (⟨.err, w, sd⟩ :: rest)).1
        = (monitor_chain s (⟨.ok .Common [], w, sd⟩ :: rest)).1
    ∧ (monitor_chain s (⟨.err, w, sd⟩ :: rest)).2.2
        = (monitor_chain s (⟨.ok .Common [], w, sd⟩ :: rest)).2.2
    ∧ (monitor_chain s (⟨.err, w, sd⟩ :: rest)).2.1
        = .log_error "Connection lost with bitcoind"
            :: (monitor_chain s (⟨.ok .Common [], w, sd⟩ :: rest)).2.1.tail := by
  refine ⟨rfl, ?_⟩
  cases sd <;> simp [monitor_chain, poll_best_tip]

/-- C7: once the shutdown signal is observed set at an iteration, the loop run
does not depend on any later scheduled input (no further poll starts), and if
the in-flight iteration completes, its state mutation and persistence are
fully applied before the loop exits with the shutdown result. -/
theorem shutdown_ends_loop (s : MonitorState) (i : IterInput)
    (rest : List IterInput) (hsd : i.shutdown = true) :
    monitor_chain s (i :: rest) = monitor_chain s [i]
    ∧ ∀ s1 tr, poll_best_tip s i.poll i.write_fails = (.ok s1, tr) →
        monitor_chain s (i :: rest)
          = (.shutdown s1,
             tr ++ [.log_debug "Received shutting down signal. Shutting down"],
             1) := by
  constructor
  · show (match poll_best_tip s i.poll i.write_fails with
      | (.panicked s1, tr) => _
      | (.ok s1, tr) => _) = _
    cases hp : poll_best_tip s i.poll i.write_fails with
    | mk r t =>
      cases r <;> simp [monitor_chain, hp, hsd]
  · intro s1 tr hp
    simp [monitor_chain, hp, hsd]

/-- Witness for C7: with the shutdown signal already set, one iteration runs
and the loop exits with its completed state, ignoring the rest of the
schedule. -/
theorem shutdown_ends_loop_witness :
    monitor_chain ⟨⟨1, 2⟩, ⟨none⟩⟩
        [⟨.ok .Common [], false, true⟩, ⟨.ok .Common [], false, false⟩]
      = monitor_chain ⟨⟨1, 2⟩, ⟨none⟩⟩ [⟨.ok .Common [], false, true⟩]
    ∧ monitor_chain ⟨⟨1, 2⟩, ⟨none⟩⟩
        [⟨.ok .Common [], false, true⟩, ⟨.ok .Common [], false, false⟩]
      = (.shutdown ⟨⟨1, 2⟩, ⟨none⟩⟩,
         [.log_debug "No new best tip found",
          .log_debug "Received shutting down signal. Shutting down"], 1) :=
  ⟨(shutdown_ends_loop ⟨⟨1, 2⟩, ⟨none⟩⟩ ⟨.ok .Common [], false, true⟩
      [⟨.ok .Common [], false, false⟩] rfl).1,
   (shutdown_ends_loop ⟨⟨1, 2⟩, ⟨none⟩⟩ ⟨.ok .Common [], false, true⟩
      [⟨.ok .Common [], false, false⟩] rfl).2 _ _ rfl⟩

/-- C10: the shutdown check happens only after the poll step: a run that
terminated (by shutdown or crash) executed at least one poll iteration, and
with the signal already set before entry, exactly one full poll iteration
still runs. -/
theorem poll_runs_before_shutdown_check (s : MonitorState)
    (inputs : List IterInput) (i : IterInput) (rest : List IterInput) :
    ((monitor_chain s inputs).1.terminated = true
      → 1 ≤ (monitor_chain s inputs).2.2)
    ∧ (i.shutdown = true → (monitor_chain s (i :: rest)).2.2 = 1) := by
  constructor
  · cases inputs with
    | nil => intro ht; simp [monitor_chain, RunResult.terminated] at ht
    | cons j js =>
      intro _
      cases hp : poll_best_tip s j.poll j.write_fails with
      | mk r t =>
        cases r <;> cases hs : j.shutdown <;>
          simp [monitor_chain, hp, hs]
  · intro hsd
    cases hp : poll_best_tip s i.poll i.write_fails with
    | mk r t =>
      cases r <;> simp [monitor_chain, hp, hsd]

/-- Witness for C10: shutdown set before entry, yet the iteration count is 1. -/
theorem poll_runs_before_shutdown_check_witness :
    1 ≤ (monitor_chain ⟨⟨1, 2⟩, ⟨none⟩⟩ [⟨.ok .Common [], false, true⟩]).2.2
    ∧ (monitor_chain ⟨⟨1, 2⟩, ⟨none⟩⟩ [⟨.ok .Common [], false, true⟩]).2.2 = 1 :=
  ⟨(poll_runs_before_shutdown_check ⟨⟨1, 2⟩, ⟨none⟩⟩
      [⟨.ok .Common [], false, true⟩] ⟨.ok .Common [], false, true⟩ []).1
      (by rfl),
   (poll_runs_before_shutdown_check ⟨⟨1, 2⟩, ⟨none⟩⟩
      [⟨.ok .Common [], false, true⟩] ⟨.ok .Common [], false, true⟩ []).2 rfl⟩

end ChainMonitorModel
